import Mathlib

/-!
Verification development for the `summariser` repository: a pipeline that
polls video channels, fetches transcripts (caption files or audio
transcription), summarizes them through a text-completion provider, and
delivers the result to a chat service, caching each processed item to disk.

The Python sources are embedded shallowly: pure string manipulation becomes
functions on `String` / `List Char`, subprocess calls and the filesystem
become explicit oracle records, Python exceptions become `Except`, and
`None` becomes `Option.none`.
-/

namespace Summariser

/- ### Python string primitives, modelled on `List Char`

Core `String` operations such as `trim` and `replace` work on UTF-8 byte
positions and do not reduce in the kernel, so the Python string methods used
by the sources are modelled directly on the character list of the string. -/

/-- Python `str.strip()` on the character list: drop whitespace from both
ends. -/
def stripChars (l : List Char) : List Char :=
  ((l.dropWhile Char.isWhitespace).reverse.dropWhile Char.isWhitespace).reverse

/-- Python `str.strip()`. -/
def pyStrip (s : String) : String :=
  String.mk (stripChars s.data)

/-- Python `str.isdigit()`: non-empty and every character a decimal digit. -/
def pyIsDigit (s : String) : Bool :=
  !s.data.isEmpty && s.data.all Char.isDigit

/-- Python `s.upper().startswith(p)` (the sources only apply it to ASCII
prefixes, for which `Char.toUpper` agrees with Python's `str.upper`). -/
def pyUpperStartsWith (p : String) (s : String) : Bool :=
  List.isPrefixOf p.data (s.data.map Char.toUpper)

/-- Python `s.replace("Z", "+00:00")` on the character list (the pattern is
a single character, so a simple fold models `str.replace` exactly). -/
def replaceZChars : List Char → List Char
  | [] => []
  | c :: rest =>
      if c = 'Z' then '+' :: '0' :: '0' :: ':' :: '0' :: '0' :: replaceZChars rest
      else c :: replaceZChars rest

/-- The call `publishedAt.replace("Z", "+00:00")` from `utils.out_of_date` and
`Agent.search_channel_videos`. -/
def pyReplaceZ (s : String) : String :=
  String.mk (replaceZChars s.data)

/- ### `subtitles.py` -/

/-- The regular expression `^\d\x7b2\x7d:\d\x7b2\x7d:\d\x7b2\x7d\.\d\x7b3\x7d -->`
from `subtitles._parse_vtt` (`re.match` anchors at the start of the line;
trailing content is unconstrained). -/
def isVttTimestampLine (s : String) : Bool :=
  match s.data with
  | d1 :: d2 :: ':' :: d3 :: d4 :: ':' :: d5 :: d6 :: '.' :: d7 :: d8 :: d9 ::
      ' ' :: '-' :: '-' :: '>' :: _ =>
      d1.isDigit && d2.isDigit && d3.isDigit && d4.isDigit && d5.isDigit &&
      d6.isDigit && d7.isDigit && d8.isDigit && d9.isDigit
  | _ => false

/-- The regular expression `^\d\x7b2\x7d:\d\x7b2\x7d:\d\x7b2\x7d,\d\x7b3\x7d -->`
from the SRT branch of `subtitles.download_subtitles` (comma before the
milliseconds instead of a dot). -/
def isSrtTimestampLine (s : String) : Bool :=
  match s.data with
  | d1 :: d2 :: ':' :: d3 :: d4 :: ':' :: d5 :: d6 :: ',' :: d7 :: d8 :: d9 ::
      ' ' :: '-' :: '-' :: '>' :: _ =>
      d1.isDigit && d2.isDigit && d3.isDigit && d4.isDigit && d5.isDigit &&
      d6.isDigit && d7.isDigit && d8.isDigit && d9.isDigit
  | _ => false

/-- The line loop of `subtitles._parse_vtt`: strip each line, skip blank
lines, pure-digit lines, timestamp lines and the `WEBVTT` header, keep the
rest. -/
def vttFilterLines : List String → List String
  | [] => []
  | line :: rest =>
      let s := pyStrip line
      if s.data.isEmpty then vttFilterLines rest
      else if pyIsDigit s then vttFilterLines rest
      else if isVttTimestampLine s then vttFilterLines rest
      else if pyUpperStartsWith "WEBVTT" s then vttFilterLines rest
      else s :: vttFilterLines rest

/-- Embedding of `subtitles._parse_vtt`, over the list of lines of the file. -/
def _parse_vtt (lines : List String) : String :=
  String.intercalate "\n" (vttFilterLines lines)

/-- The inline SRT-to-text loop of `subtitles.download_subtitles`: strip
each line, skip blank lines, pure-digit lines and comma-millisecond
timestamp lines, keep the rest (no header handling). -/
def srtFilterLines : List String → List String
  | [] => []
  | line :: rest =>
      let s := pyStrip line
      if s.data.isEmpty then srtFilterLines rest
      else if pyIsDigit s then srtFilterLines rest
      else if isSrtTimestampLine s then srtFilterLines rest
      else s :: srtFilterLines rest

/-- The SRT branch of `subtitles.download_subtitles`. -/
def parse_srt (lines : List String) : String :=
  String.intercalate "\n" (srtFilterLines lines)

/-- The one Python exception our subprocess primitives can raise:
`subprocess.CalledProcessError` from `subprocess.run(..., check=True)`. -/
inductive PyExn where
  | calledProcessError
deriving DecidableEq

/-- Model of `subprocess.run(cmd, check=True)`: raises `CalledProcessError` when the
command exits non-zero. -/
def runCheckedCmd (raises : Bool) : Except PyExn Unit :=
  if raises then .error .calledProcessError else .ok ()

/-- A `try ... except subprocess.CalledProcessError: log` block around a
statement. -/
def swallowCPE (act : Except PyExn Unit) : Except PyExn Unit :=
  match act with
  | .error .calledProcessError => .ok ()
  | r => r

/-- Filesystem and subprocess oracle for `subtitles.download_subtitles`:
which caption files exist after the subtitle download attempt, their
contents as lines, and the outcomes of the three external commands. -/
structure SubEnv where
  file_exists : String → Bool
  file_lines : String → List String
  sub_cmd_raises : Bool
  audio_cmd_raises : Bool
  wav_exists : Bool
  whisper_raises : Bool
  txt_exists : Bool
  txt_contents : String

/-- The candidate caption filenames searched for one language, in order:
`video_id.lang.vtt`, `video_id.vtt`, `video_id.lang.srt`, `video_id.srt`. -/
def subtitleCandidates (output_dir video_id lang : String) : List String :=
  [output_dir ++ "/" ++ video_id ++ "." ++ lang ++ ".vtt",
   output_dir ++ "/" ++ video_id ++ ".vtt",
   output_dir ++ "/" ++ video_id ++ "." ++ lang ++ ".srt",
   output_dir ++ "/" ++ video_id ++ ".srt"]

/-- The nested search loop of `download_subtitles` step 2: first existing
candidate path, languages in priority order. -/
def findSubtitleFile (env : SubEnv) (output_dir video_id : String) :
    List String → Option String
  | [] => none
  | lang :: rest =>
      match (subtitleCandidates output_dir video_id lang).find? env.file_exists with
      | some path => some path
      | none => findSubtitleFile env output_dir video_id rest

/-- Python `path.lower().endswith(".vtt")`. -/
def pathIsVtt (path : String) : Bool :=
  List.isSuffixOf ".vtt".data (path.data.map Char.toLower)

/-- Embedding of `subtitles.download_subtitles`, with all side effects routed through
`SubEnv`. The result is `Except` so that an uncaught exception in the
embedding would show up as `.error`; `langs` is the Python parameter whose
`None` default becomes `["en"]`. -/
def download_subtitles (env : SubEnv) (video_id : String)
    (langs? : Option (List String)) (output_dir : String)
    (use_audio_transcribe : Bool) : Except PyExn (Option String) := do
  let langs := match langs? with
    | none => ["en"]
    | some l => l
  -- step 1: subtitle download attempt, CalledProcessError swallowed
  let _ ← swallowCPE (runCheckedCmd env.sub_cmd_raises)
  -- step 2: search for caption files in priority order
  match findSubtitleFile env output_dir video_id langs with
  | some path =>
      if pathIsVtt path then
        return some (_parse_vtt (env.file_lines path))
      else
        return some (parse_srt (env.file_lines path))
  | none =>
      -- step 3: optional audio-transcription fallback
      if use_audio_transcribe then
        match runCheckedCmd env.audio_cmd_raises with
        | .error _ => return none
        | .ok _ =>
        if !env.wav_exists then
          return none
        else
          match runCheckedCmd env.whisper_raises with
          | .error _ => return none
          | .ok _ =>
            if env.txt_exists then
              return some env.txt_contents
            else
              return none
      else
        return none

/-- Embedding of `YouTubeMonitor.get_video_transcript`: joins the fetched segments with
spaces; the bare `except Exception` converts any provider failure into
`None`. -/
def get_video_transcript (fetched : Except PyExn (List String)) :
    Except PyExn (Option String) :=
  match fetched with
  | .ok segments => .ok (some (String.intercalate " " segments))
  | .error _ => .ok none

/- ### Data model: search items and video records -/

/-- The `snippet` object of one search result, with the fields the sources
read. `publishedAt` is the raw ISO-8601 string; `channelTitle` and
`channelId` are read through `dict.get` and may be absent. -/
structure Snippet where
  title : String
  description : String
  publishedAt : String
  channelTitle : Option String
  channelId : Option String
deriving DecidableEq

/-- One item of the provider's search response: the snippet plus
`item.get("id", \x7b\x7d).get("videoId")`. -/
structure SearchItem where
  snippet : Snippet
  videoId : Option String
deriving DecidableEq

/-- The video dictionary built by `utils.item_to_video` (and persisted to
the cache by `LangAgent._save_video_to_file`). All values are strings or
`None`. -/
structure Video where
  video_id : Option String
  channel : Option String
  channel_id : Option String
  title : Option String
  published_at : Option String
  url : Option String
  transcript : Option String
  summary : Option String
deriving DecidableEq

/- ### `utils.py` -/

/-- Embedding of `utils.out_of_date`. Instants are integers (seconds); `fromisoformat`
is an uninterpreted parameter `parse` applied to the `Z`-normalized
timestamp string; `timedelta(days=days)` is `days * 86400` seconds. The
item is reported out of date exactly when `published_at < cutoff`. -/
def out_of_date (parse : String → Int) (item : SearchItem) (now days : Int) : Bool :=
  let dt := pyReplaceZ item.snippet.publishedAt
  let cutoff := now - days * 86400
  let published_at := parse dt
  if published_at < cutoff then true else false

/-- Python truthiness of the optional `video_id` (`None` and the empty
string are falsy), as used by `url = f"..." if video_id else None`. -/
def pyTruthyOptStr : Option String → Bool
  | none => false
  | some s => !s.data.isEmpty

/-- Embedding of `utils.item_to_video`. -/
def item_to_video (i : SearchItem) : Video :=
  { video_id := i.videoId
    channel := i.snippet.channelTitle
    channel_id := i.snippet.channelId
    title := some i.snippet.title
    published_at := some i.snippet.publishedAt
    url :=
      if pyTruthyOptStr i.videoId then
        some ("https://www.youtube.com/watch?v=" ++ i.videoId.getD "")
      else none
    transcript := none
    summary := none }

/- ### `LangAgent.run_for_channel`: recency / description / title filtering -/

/-- The per-item condition of the list comprehension in
`LangAgent.run_for_channel` before the dedup clauses:
`len(description) > 0 and not out_of_date(i, days)`. -/
def passDescRecency (parse : String → Int) (now days : Int) (i : SearchItem) : Bool :=
  decide (0 < i.snippet.description.length) && !out_of_date parse i now days

/-- The full list comprehension of `LangAgent.run_for_channel`: walrus
clauses `(t := title) not in seen_titles and not seen_titles.add(t)` add the
title to `seen` exactly when the item is kept. -/
def filterItems (parse : String → Int) (now days : Int) :
    List SearchItem → List String → List Video
  | [], _ => []
  | i :: rest, seen =>
      if passDescRecency parse now days i && !seen.contains i.snippet.title then
        item_to_video i :: filterItems parse now days rest (i.snippet.title :: seen)
      else
        filterItems parse now days rest seen

/-- The contents of `seen_titles` after the comprehension has walked a
chunk of the input (titles of the kept items, newest first). -/
def seenAfter (parse : String → Int) (now days : Int) :
    List SearchItem → List String → List String
  | [], seen => seen
  | i :: rest, seen =>
      if passDescRecency parse now days i && !seen.contains i.snippet.title then
        seenAfter parse now days rest (i.snippet.title :: seen)
      else
        seenAfter parse now days rest seen

/- ### `AISummarizer.summarize`: input truncation -/

/-- The truncation step of `AISummarizer.summarize`: bodies longer than
`max_chars = 12000` become `text[:12000] + "..."`; shorter bodies pass
through unchanged. Text is its character list. -/
def summarize_submitted_text (text : List Char) : List Char :=
  let max_chars := 12000
  if text.length > max_chars then text.take max_chars ++ ['.', '.', '.']
  else text

/- ### `LangAgent` item cache: one JSON document per `(channel, video_id)` -/

/-- The fragment of JSON that the cached video dictionaries inhabit:
objects whose values are strings or `null`. -/
inductive JsonVal where
  | null
  | str (s : String)
deriving DecidableEq

/-- JSON encoding of an optional string field (`json.dump` writes `None`
as `null`). -/
def jsonOfOptStr : Option String → JsonVal
  | none => .null
  | some s => .str s

/-- Decoding of one field of the loaded document. -/
def optStrOfJson : Option JsonVal → Option (Option String)
  | some .null => some none
  | some (.str s) => some (some s)
  | none => none

/-- Encoding `json.dump` of the video dictionary: the eight fields in insertion
order. -/
def videoToJson (v : Video) : List (String × JsonVal) :=
  [("video_id", jsonOfOptStr v.video_id),
   ("channel", jsonOfOptStr v.channel),
   ("channel_id", jsonOfOptStr v.channel_id),
   ("title", jsonOfOptStr v.title),
   ("published_at", jsonOfOptStr v.published_at),
   ("url", jsonOfOptStr v.url),
   ("transcript", jsonOfOptStr v.transcript),
   ("summary", jsonOfOptStr v.summary)]

/-- Decoding `json.load` of a cached document, read back as a video dictionary. -/
def videoOfJson (fields : List (String × JsonVal)) : Option Video := do
  let video_id ← optStrOfJson (fields.lookup "video_id")
  let channel ← optStrOfJson (fields.lookup "channel")
  let channel_id ← optStrOfJson (fields.lookup "channel_id")
  let title ← optStrOfJson (fields.lookup "title")
  let published_at ← optStrOfJson (fields.lookup "published_at")
  let url ← optStrOfJson (fields.lookup "url")
  let transcript ← optStrOfJson (fields.lookup "transcript")
  let summary ← optStrOfJson (fields.lookup "summary")
  return { video_id, channel, channel_id, title, published_at, url,
           transcript, summary }

/-- Python `str`/f-string formatting of the optional `video_id`
(`None` prints as `"None"`). -/
def pyFormatOptStr : Option String → String
  | none => "None"
  | some s => s

/-- The cache filename `data/\x7bchannel_name\x7d_\x7bvideo_id\x7d.json`. -/
def cacheFileName (channel_name : String) (video_id : String) : String :=
  "data/" ++ channel_name ++ "_" ++ video_id ++ ".json"

/-- The on-disk cache: a map from filename to the JSON document it holds. -/
def CacheFS : Type := String → Option (List (String × JsonVal))

/-- Embedding of `LangAgent._save_video_to_file`: overwrite the document at
`data/\x7bchannel\x7d_\x7bv["video_id"]\x7d.json` wholesale. -/
def _save_video_to_file (fs : CacheFS) (channel_name : String) (v : Video) : CacheFS :=
  fun path =>
    if path = cacheFileName channel_name (pyFormatOptStr v.video_id) then
      some (videoToJson v)
    else fs path

/-- Embedding of `LangAgent._load_video_from_file`: read and decode the document at the
key's filename (`none` models the `open` failing or the document not being
a video record). -/
def _load_video_from_file (fs : CacheFS) (channel_name : String)
    (video_id : String) : Option Video :=
  match fs (cacheFileName channel_name video_id) with
  | some fields => videoOfJson fields
  | none => none

/- ### `LangAgent.run_for_channel`: the per-item pipeline -/

/-- Observable effects of one run of the per-item loop. -/
inductive Event where
  | fetchTranscript (video_id : Option String)
  | summarizeCall (sys_prompt transcript : String)
  | saveVideo (channel_name : String) (v : Video)
  | notify (msg : String)
  | sleep (seconds : Nat)
deriving DecidableEq

/-- Oracles for the collaborators of the per-item loop: the transcript
resolver, the summarization gateway and the message formatter. -/
structure RunEnv where
  transcriptOf : Option String → Option String
  summarizeOf : String → String → Option String
  messageTemplate : String → Option String → Option String → String

/-- The `for v in videos` body of `LangAgent.run_for_channel`: fetch the
transcript (mutating the record); when it is `None`, persist and move on;
otherwise summarize, append to `self.videos`, persist, notify and sleep.
Returns the emitted events and the records appended to `self.videos`. -/
def processItems (env : RunEnv) (channel_name sys_prompt : String) :
    List Video → List Event × List Video
  | [] => ([], [])
  | v :: rest =>
      let t := env.transcriptOf v.video_id
      let v1 : Video := { v with transcript := t }
      let (evs, appended) := processItems env channel_name sys_prompt rest
      match t with
      | none =>
          (Event.fetchTranscript v.video_id ::
             Event.saveVideo channel_name v1 :: evs,
           appended)
      | some tr =>
          let v2 : Video := { v1 with summary := env.summarizeOf sys_prompt tr }
          let msg := env.messageTemplate channel_name v2.url v2.summary
          (Event.fetchTranscript v.video_id ::
             Event.summarizeCall sys_prompt tr ::
             Event.saveVideo channel_name v2 ::
             Event.notify msg ::
             Event.sleep 10 :: evs,
           v2 :: appended)

/- ### The class attribute `videos` shared by all agent instances -/

/-- Process-wide mutable state: the single list object bound to the class
attribute `videos` (`LangAgent.videos = []` at class scope). -/
structure ProcState where
  agentClassVideos : List Video
deriving DecidableEq

/-- An agent object. Neither `Agent` nor `LangAgent` ever assigns
`self.videos`, so instances carry no `videos` slot of their own, only an
identity. -/
structure AgentInst where
  instanceId : Nat
deriving DecidableEq

/-- Attribute lookup `self.videos`: the instance dictionary has no
`videos` binding, so lookup falls through to the class attribute. -/
def instVideos (_inst : AgentInst) (s : ProcState) : List Video :=
  s.agentClassVideos

/-- Embedding of `LangAgent.run_for_channel`, viewed as its update of the shared class
list: `self.videos.append(v)` mutates the class-level list in place, so a
run through any instance extends the one shared list. -/
def runForChannel (_inst : AgentInst) (env : RunEnv)
    (channel_name sys_prompt : String) (items : List Video)
    (s : ProcState) : ProcState :=
  { s with
    agentClassVideos :=
      s.agentClassVideos ++ (processItems env channel_name sys_prompt items).2 }

/-- One `run_for_channel` invocation: the instance it goes through and its
arguments. -/
structure RunSpec where
  inst : AgentInst
  env : RunEnv
  channel_name : String
  sys_prompt : String
  items : List Video

/-- A sequence of `run_for_channel` invocations over the process lifetime. -/
def runAll : List RunSpec → ProcState → ProcState
  | [], s => s
  | r :: rs, s =>
      runAll rs (runForChannel r.inst r.env r.channel_name r.sys_prompt r.items s)

/- ### Notification dispatcher -/

/-- Result of a dispatch: whether it delivered, how many attempts it made,
and the total fixed delay it slept. -/
structure DispatchResult where
  delivered : Bool
  attempts : Nat
  slept : Nat
deriving DecidableEq

/-- Modelled from the spec: the notification dispatcher actually used by
the orchestrators (constructed with no arguments and offering
`message_template`) is not among the provided sources — only its callers
are — so its retry loop follows the spec: up to 5 attempts, a fixed
10-time-unit sleep after every attempt regardless of outcome, and the
remaining budget abandoned on the first success. `provider n` is the
outcome of attempt `n` (0-based). -/
def dispatchGo (provider : Nat → Bool) : Nat → Nat → Nat → DispatchResult
  | 0, attempts, slept => ⟨false, attempts, slept⟩
  | fuel + 1, attempts, slept =>
      let ok := provider attempts
      let attempts1 := attempts + 1
      let slept1 := slept + 10
      if ok then ⟨true, attempts1, slept1⟩
      else dispatchGo provider fuel attempts1 slept1

/-- Modelled from the spec: `dispatch` with the reference retry budget of
5 attempts. -/
def dispatch (provider : Nat → Bool) : DispatchResult :=
  dispatchGo provider 5 0 0

/-! ## Theorems -/

/-- Claim C6: a cue-format caption file made of a header line, a numeric
index line, a `00:00:01.000 --> 00:00:02.000` timestamp line and the text
line "Hello world" parses to exactly "Hello world"; cue numbers, timestamp
lines, format headers and blank lines are all discarded. -/
theorem C6_parse_vtt_cue_file :
    _parse_vtt ["WEBVTT", "1", "00:00:01.000 --> 00:00:02.000", "Hello world"] =
        "Hello world"
    ∧ _parse_vtt ["WEBVTT", "", "1", "00:00:01.000 --> 00:00:02.000", "",
          "Hello world"] =
        "Hello world" :=
  ⟨by decide, by decide⟩

/-- Claim C2: the Poller retains an item exactly when the timestamp parsed
from the `Z`-normalized `publishedAt` string is at least `now` minus the
recency window; an item exactly at the cutoff is retained, and exactly the
strictly-older items are excluded. -/
theorem C2_recency_boundary (parse : String → Int) (item : SearchItem)
    (now days : Int) :
    (out_of_date parse item now days = false ↔
      now - days * 86400 ≤ parse (pyReplaceZ item.snippet.publishedAt))
    ∧ (parse (pyReplaceZ item.snippet.publishedAt) = now - days * 86400 →
        out_of_date parse item now days = false)
    ∧ (out_of_date parse item now days = true ↔
        parse (pyReplaceZ item.snippet.publishedAt) < now - days * 86400) := by
  refine ⟨?_, ?_, ?_⟩
  · simp [out_of_date]
  · intro h
    simp [out_of_date, h]
  · simp [out_of_date]

/-- Claim C2, witness: a boundary item whose parsed timestamp equals the
cutoff exactly is retained. -/
theorem C2_recency_boundary_witness :
    out_of_date (fun _ => 0) ⟨⟨"t", "d", "1970-01-02T00:00:00Z", none, none⟩, some "v"⟩
        86400 1 = false :=
  (C2_recency_boundary (fun _ => 0)
      ⟨⟨"t", "d", "1970-01-02T00:00:00Z", none, none⟩, some "v"⟩ 86400 1).2.1
    (by decide)

/-- Claim C3, counterexample: the truncation is not silent. On a
12001-character body the submitted text is the first 12000 characters with
a three-character ellipsis marker appended, so it differs from the silent
truncation and exceeds the stated 12000-character budget. -/
theorem C3_truncation_counterexample :
    summarize_submitted_text (List.replicate 12001 'a') =
        List.replicate 12000 'a' ++ ['.', '.', '.']
    ∧ summarize_submitted_text (List.replicate 12001 'a') ≠
        List.replicate 12000 'a'
    ∧ ¬ (summarize_submitted_text (List.replicate 12001 'a')).length ≤ 12000 := by
  have hlen : (List.replicate 12001 'a').length = 12001 := List.length_replicate _ _
  have h : summarize_submitted_text (List.replicate 12001 'a') =
      List.replicate 12000 'a' ++ ['.', '.', '.'] := by
    unfold summarize_submitted_text
    rw [hlen, if_pos (by norm_num), List.take_replicate]
    norm_num
  refine ⟨h, ?_, ?_⟩
  · rw [h]
    intro hc
    have hc2 := congrArg List.length hc
    rw [List.length_append, List.length_replicate] at hc2
    simp at hc2
  · rw [h, List.length_append, List.length_replicate]
    norm_num

/-- Claim C3, amended: the Summarization Gateway truncates bodies longer
than 12000 characters to their first 12000 characters and appends the
marker "..." (so the submitted text is 12003 characters and does signal the
loss); a body at or below 12000 characters is submitted unchanged. -/
theorem C3_truncation_amended (text : List Char) :
    (text.length ≤ 12000 → summarize_submitted_text text = text)
    ∧ (12000 < text.length →
        summarize_submitted_text text = text.take 12000 ++ ['.', '.', '.']
        ∧ (summarize_submitted_text text).length = 12003) := by
  constructor
  · intro h
    unfold summarize_submitted_text
    rw [if_neg (by omega)]
  · intro h
    have heq : summarize_submitted_text text = text.take 12000 ++ ['.', '.', '.'] := by
      unfold summarize_submitted_text
      rw [if_pos (by omega)]
    refine ⟨heq, ?_⟩
    rw [heq, List.length_append, List.length_take]
    have hmin : min 12000 text.length = 12000 := by omega
    rw [hmin]
    decide

/-- Claim C3, amended, witness: a short body passes through unchanged and a
12001-character body is truncated with the ellipsis marker appended. -/
theorem C3_truncation_amended_witness :
    summarize_submitted_text ['h'] = ['h']
    ∧ summarize_submitted_text (List.replicate 12001 'a') =
        (List.replicate 12001 'a').take 12000 ++ ['.', '.', '.'] :=
  ⟨(C3_truncation_amended ['h']).1 (by decide),
   ((C3_truncation_amended (List.replicate 12001 'a')).2
      (by rw [List.length_replicate]; norm_num)).1⟩

theorem vttFilterLines_append (xs ys : List String) :
    vttFilterLines (xs ++ ys) = vttFilterLines xs ++ vttFilterLines ys := by
  induction xs with
  | nil => simp [vttFilterLines]
  | cons l rest ih =>
      simp only [List.cons_append, vttFilterLines]
      split_ifs <;> simp [ih]

theorem srtFilterLines_append (xs ys : List String) :
    srtFilterLines (xs ++ ys) = srtFilterLines xs ++ srtFilterLines ys := by
  induction xs with
  | nil => simp [srtFilterLines]
  | cons l rest ih =>
      simp only [List.cons_append, srtFilterLines]
      split_ifs <;> simp [ih]

theorem pyIsDigit_not_empty {s : String} (h : pyIsDigit s = true) :
    s.data.isEmpty = false := by
  unfold pyIsDigit at h
  rcases Bool.and_eq_true_iff.mp h with ⟨h1, _⟩
  simpa using h1

/-- Claim C10: both caption parsers drop every line whose stripped content
is purely decimal digits — even when such a line is spoken text — so a
caption file whose only spoken line is a pure number parses to the empty
text. -/
theorem C10_digit_lines_dropped (pre post : List String) (l : String)
    (h : pyIsDigit (pyStrip l) = true) :
    _parse_vtt (pre ++ l :: post) = _parse_vtt (pre ++ post)
    ∧ parse_srt (pre ++ l :: post) = parse_srt (pre ++ post)
    ∧ _parse_vtt ["WEBVTT", "1", "00:00:01.000 --> 00:00:02.000", "42"] = ""
    ∧ parse_srt ["1", "00:00:01,000 --> 00:00:02,000", "2024"] = "" := by
  have hne := pyIsDigit_not_empty h
  have hv : vttFilterLines (l :: post) = vttFilterLines post := by
    simp [vttFilterLines, hne, h]
  have hs : srtFilterLines (l :: post) = srtFilterLines post := by
    simp [srtFilterLines, hne, h]
  refine ⟨?_, ?_, by decide, by decide⟩
  · unfold _parse_vtt
    rw [vttFilterLines_append, vttFilterLines_append, hv]
  · unfold parse_srt
    rw [srtFilterLines_append, srtFilterLines_append, hs]

/-- Claim C10, witness: inserting the pure-number line "7" into a caption
file does not change either parse. -/
theorem C10_digit_lines_dropped_witness :
    _parse_vtt ["a", "7"] = _parse_vtt ["a"]
    ∧ parse_srt ["a", "7"] = parse_srt ["a"] := by
  have h := C10_digit_lines_dropped ["a"] [] "7" (by decide)
  exact ⟨h.1, h.2.1⟩

/-- Claim C7: saving an Item to the cache under its `(source_id, item_id)`
key and loading it back by the same key returns a value equal in all fields
to the one saved. -/
theorem C7_cache_round_trip (fs : CacheFS) (channel_name : String) (v : Video) :
    _load_video_from_file (_save_video_to_file fs channel_name v) channel_name
      (pyFormatOptStr v.video_id) = some v := by
  unfold _load_video_from_file _save_video_to_file
  rw [if_pos rfl]
  rcases v with ⟨a, b, c, d, e, f, g, k⟩
  cases a <;> cases b <;> cases c <;> cases d <;> cases e <;> cases f <;>
    cases g <;> cases k <;> rfl

theorem swallowCPE_runCheckedCmd (b : Bool) :
    swallowCPE (runCheckedCmd b) = Except.ok () := by
  cases b <;> rfl

theorem download_subtitles_isOk (env : SubEnv) (video_id : String)
    (langs? : Option (List String)) (output_dir : String) (ua : Bool) :
    ∃ r, download_subtitles env video_id langs? output_dir ua = .ok r := by
  unfold download_subtitles
  rw [swallowCPE_runCheckedCmd]
  rcases langs? with _ | langs <;>
    simp only [bind, Except.bind] <;>
    rcases hf : findSubtitleFile env output_dir video_id _ with _ | path
  case none.none =>
    cases ua <;> simp only [if_true, if_false, Bool.false_eq_true, ite_false, ite_true]
    · exact ⟨none, rfl⟩
    · cases ha : env.audio_cmd_raises
      · simp only [runCheckedCmd, ha, Bool.false_eq_true, ite_false]
        cases hw : env.wav_exists
        · exact ⟨none, rfl⟩
        · simp only [hw, Bool.not_true, Bool.false_eq_true, ite_false]
          cases hwr : env.whisper_raises
          · simp only [Bool.false_eq_true, ite_false]
            cases ht : env.txt_exists
            · exact ⟨none, rfl⟩
            · exact ⟨some env.txt_contents, rfl⟩
          · exact ⟨none, rfl⟩
      · simp only [runCheckedCmd, ha, ite_true]
        exact ⟨none, rfl⟩
  case none.some =>
    cases hv : pathIsVtt path
    · exact ⟨some (parse_srt (env.file_lines path)), by simp [hv, pure, Except.pure]⟩
    · exact ⟨some (_parse_vtt (env.file_lines path)), by simp [hv, pure, Except.pure]⟩
  case some.none =>
    cases ua <;> simp only [if_true, if_false, Bool.false_eq_true, ite_false, ite_true]
    · exact ⟨none, rfl⟩
    · cases ha : env.audio_cmd_raises
      · simp only [runCheckedCmd, ha, Bool.false_eq_true, ite_false]
        cases hw : env.wav_exists
        · exact ⟨none, rfl⟩
        · simp only [hw, Bool.not_true, Bool.false_eq_true, ite_false]
          cases hwr : env.whisper_raises
          · simp only [Bool.false_eq_true, ite_false]
            cases ht : env.txt_exists
            · exact ⟨none, rfl⟩
            · exact ⟨some env.txt_contents, rfl⟩
          · exact ⟨none, rfl⟩
      · simp only [runCheckedCmd, ha, ite_true]
        exact ⟨none, rfl⟩
  case some.some =>
    cases hv : pathIsVtt path
    · exact ⟨some (parse_srt (env.file_lines path)), by simp [hv, pure, Except.pure]⟩
    · exact ⟨some (_parse_vtt (env.file_lines path)), by simp [hv, pure, Except.pure]⟩

/-- Claim C5: the transcript Resolver never raises to its caller — the
subtitle downloader always produces an `.ok` result (never an uncaught
exception), as does the captions-API resolver, and each failure path
(caption download failure with no caption file, audio download failure,
transcription failure) lands on `.ok none`. -/
theorem C5_resolver_never_raises (env : SubEnv) (video_id : String)
    (langs? : Option (List String)) (output_dir : String) (ua : Bool)
    (fetched : Except PyExn (List String)) :
    (∃ r, download_subtitles env video_id langs? output_dir ua = .ok r)
    ∧ (∃ r, get_video_transcript fetched = .ok r)
    ∧ (∀ langs, findSubtitleFile env output_dir video_id langs = none →
        download_subtitles env video_id (some langs) output_dir false = .ok none)
    ∧ (∀ langs, findSubtitleFile env output_dir video_id langs = none →
        env.audio_cmd_raises = true →
        download_subtitles env video_id (some langs) output_dir true = .ok none)
    ∧ (∀ langs, findSubtitleFile env output_dir video_id langs = none →
        env.audio_cmd_raises = false → env.whisper_raises = true →
        download_subtitles env video_id (some langs) output_dir true = .ok none) := by
  refine ⟨download_subtitles_isOk env video_id langs? output_dir ua, ?_, ?_, ?_, ?_⟩
  · rcases fetched with e | t
    · exact ⟨none, rfl⟩
    · exact ⟨some (String.intercalate " " t), rfl⟩
  · intro langs hf
    unfold download_subtitles
    rw [swallowCPE_runCheckedCmd]
    simp [hf]
  · intro langs hf ha
    unfold download_subtitles
    rw [swallowCPE_runCheckedCmd]
    simp [hf, runCheckedCmd, ha]
  · intro langs hf ha hw
    unfold download_subtitles
    rw [swallowCPE_runCheckedCmd]
    simp only [bind, Except.bind, hf]
    simp only [runCheckedCmd, ha, hw, Bool.false_eq_true, ite_false, ite_true]
    cases henv : env.wav_exists <;> simp [pure, Except.pure]

/-- Claim C5, witness: with the subtitle command failing, no caption file
on disk, audio fallback enabled, and the audio download failing, the
resolver returns `.ok none`. -/
theorem C5_resolver_never_raises_witness :
    download_subtitles
        ⟨fun _ => false, fun _ => [], true, true, false, true, false, ""⟩
        "vid" (some ["en"]) "tmp" true = .ok none :=
  (C5_resolver_never_raises
      ⟨fun _ => false, fun _ => [], true, true, false, true, false, ""⟩
      "vid" none "tmp" true (.ok [])).2.2.2.1 ["en"] (by decide) rfl

/-- Claim C8: when the Resolver returns no transcript for an item, the
pipeline persists the item (with its transcript field overwritten to the
absent value) and stops processing it — the events it emits for that item
are exactly the fetch and the save, containing no summarization call and no
notification — while the remaining items are processed unchanged and
nothing is appended to the processed list for that item. -/
theorem C8_missing_transcript_terminal (env : RunEnv)
    (channel_name sys_prompt : String) (v : Video) (rest : List Video)
    (h : env.transcriptOf v.video_id = none) :
    (processItems env channel_name sys_prompt (v :: rest)).1 =
        Event.fetchTranscript v.video_id ::
          Event.saveVideo channel_name { v with transcript := none } ::
          (processItems env channel_name sys_prompt rest).1
    ∧ (processItems env channel_name sys_prompt (v :: rest)).2 =
        (processItems env channel_name sys_prompt rest).2
    ∧ (∀ p t, Event.summarizeCall p t ∉
        [Event.fetchTranscript v.video_id,
         Event.saveVideo channel_name { v with transcript := none }])
    ∧ (∀ m, Event.notify m ∉
        [Event.fetchTranscript v.video_id,
         Event.saveVideo channel_name { v with transcript := none }]) := by
  refine ⟨?_, ?_, ?_, ?_⟩
  · simp [processItems, h]
  · simp [processItems, h]
  · intro p t
    simp
  · intro m
    simp

/-- Claim C8, witness: with a resolver that always returns no transcript,
the one-item run emits exactly the fetch and the save. -/
theorem C8_missing_transcript_terminal_witness :
    (processItems ⟨fun _ => none, fun _ _ => none, fun _ _ _ => ""⟩ "c" "p"
        [⟨some "v", none, none, none, none, none, none, none⟩]).1 =
      [Event.fetchTranscript (some "v"),
       Event.saveVideo "c" ⟨some "v", none, none, none, none, none, none, none⟩] :=
  (C8_missing_transcript_terminal
      ⟨fun _ => none, fun _ _ => none, fun _ _ _ => ""⟩ "c" "p"
      ⟨some "v", none, none, none, none, none, none, none⟩ [] rfl).1

theorem runAll_extends (specs : List RunSpec) :
    ∀ s : ProcState, s.agentClassVideos <+: (runAll specs s).agentClassVideos := by
  induction specs with
  | nil => intro s; exact List.prefix_refl _
  | cons r rs ih =>
      intro s
      exact (List.prefix_append _ _).trans (ih _)

/-- Claim C9: the processed-videos list is a class-level attribute — every
agent instance reads and appends to the same shared list, an append made
through one instance is visible through any other, and across any sequence
of runs the list only ever grows (no run resets it). -/
theorem C9_shared_class_videos (i1 i2 : AgentInst) (_hne : i1 ≠ i2)
    (s : ProcState) (env : RunEnv) (channel_name sys_prompt : String)
    (items : List Video) (specs : List RunSpec) :
    instVideos i1 s = instVideos i2 s
    ∧ instVideos i2 (runForChannel i1 env channel_name sys_prompt items s) =
        instVideos i1 s ++ (processItems env channel_name sys_prompt items).2
    ∧ instVideos i1 s <+: instVideos i1 (runAll specs s) := by
  refine ⟨rfl, rfl, ?_⟩
  exact runAll_extends specs s

/-- Claim C9, witness: two distinct agent objects observe the same shared
list. -/
theorem C9_shared_class_videos_witness :
    instVideos ⟨0⟩ ⟨[]⟩ = instVideos ⟨1⟩ ⟨[]⟩ :=
  (C9_shared_class_videos ⟨0⟩ ⟨1⟩ (by decide) ⟨[]⟩
      ⟨fun _ => none, fun _ _ => none, fun _ _ _ => ""⟩ "c" "p" [] []).1

theorem dispatchGo_bounds (p : Nat → Bool) :
    ∀ fuel a s, a ≤ (dispatchGo p fuel a s).attempts
      ∧ (dispatchGo p fuel a s).attempts ≤ a + fuel
      ∧ (dispatchGo p fuel a s).slept = s + 10 * ((dispatchGo p fuel a s).attempts - a) := by
  intro fuel
  induction fuel with
  | zero =>
      intro a s
      simp [dispatchGo]
  | succ n ih =>
      intro a s
      simp only [dispatchGo]
      cases hp : p a
      · simp only [hp, Bool.false_eq_true, ite_false]
        obtain ⟨h1, h2, h3⟩ := ih (a + 1) (s + 10)
        refine ⟨by omega, by omega, by omega⟩
      · simp only [hp, ite_true]
        refine ⟨by omega, by omega, ?_⟩
        show s + 10 = s + 10 * (a + 1 - a)
        omega

theorem dispatchGo_success (p : Nat → Bool) :
    ∀ k fuel a s, k < fuel → p (a + k) = true → (∀ i, i < k → p (a + i) = false) →
      dispatchGo p fuel a s = ⟨true, a + k + 1, s + 10 * (k + 1)⟩ := by
  intro k
  induction k with
  | zero =>
      intro fuel a s hk hp _
      cases fuel with
      | zero => omega
      | succ n =>
          rw [Nat.add_zero] at hp
          simp only [dispatchGo, hp, ite_true]
  | succ k ih =>
      intro fuel a s hk hp hprev
      cases fuel with
      | zero => omega
      | succ n =>
          have h0 : p a = false := by simpa using hprev 0 (by omega)
          simp only [dispatchGo, h0, Bool.false_eq_true, ite_false]
          have hstep := ih n (a + 1) (s + 10) (by omega)
            (by rw [show a + 1 + k = a + (k + 1) by omega]; exact hp)
            (fun i hi => by
              rw [show a + 1 + i = a + (i + 1) by omega]
              exact hprev (i + 1) (by omega))
          rw [hstep]
          simp only [DispatchResult.mk.injEq]
          refine ⟨by trivial, by omega, by omega⟩

theorem dispatchGo_allfail (p : Nat → Bool) (hp : ∀ i, p i = false) :
    ∀ fuel a s, dispatchGo p fuel a s = ⟨false, a + fuel, s + 10 * fuel⟩ := by
  intro fuel
  induction fuel with
  | zero =>
      intro a s
      simp [dispatchGo]
  | succ n ih =>
      intro a s
      simp only [dispatchGo, hp a, Bool.false_eq_true, ite_false]
      rw [ih (a + 1) (s + 10)]
      simp only [DispatchResult.mk.injEq]
      refine ⟨by trivial, by omega, by omega⟩

/-- Claim C1: `dispatch` makes at most 5 attempts, pays the fixed
10-time-unit delay after every attempt regardless of outcome (total sleep =
10 times the attempts made), returns success with exactly 5 attempts when
the provider fails the first 4 times and succeeds the 5th, returns failure
after exactly 5 attempts when the provider always fails, and abandons the
remaining budget immediately on the first successful attempt. -/
theorem C1_dispatch_retry_policy (provider : Nat → Bool) :
    (dispatch provider).attempts ≤ 5
    ∧ (dispatch provider).slept = 10 * (dispatch provider).attempts
    ∧ ((∀ i, i < 4 → provider i = false) → provider 4 = true →
        dispatch provider = ⟨true, 5, 50⟩)
    ∧ ((∀ i, provider i = false) → dispatch provider = ⟨false, 5, 50⟩)
    ∧ (∀ k, k < 5 → provider k = true → (∀ i, i < k → provider i = false) →
        (dispatch provider).delivered = true
        ∧ (dispatch provider).attempts = k + 1
        ∧ (dispatch provider).slept = 10 * (k + 1)) := by
  obtain ⟨hge, hle, hslept⟩ := dispatchGo_bounds provider 5 0 0
  refine ⟨by simpa [dispatch] using hle, ?_, ?_, ?_, ?_⟩
  · have h1 : (dispatch provider).slept =
        0 + 10 * ((dispatch provider).attempts - 0) := hslept
    have h2 : 0 ≤ (dispatch provider).attempts := hge
    omega
  · intro hfail hsucc
    have h := dispatchGo_success provider 4 5 0 0 (by omega)
      (by simpa using hsucc) (fun i hi => by simpa using hfail i hi)
    simpa [dispatch] using h
  · intro hfail
    have h := dispatchGo_allfail provider hfail 5 0 0
    simpa [dispatch] using h
  · intro k hk hsucc hprev
    have h := dispatchGo_success provider k 5 0 0 hk
      (by simpa using hsucc) (fun i hi => by simpa using hprev i hi)
    have hd : dispatch provider = ⟨true, 0 + k + 1, 0 + 10 * (k + 1)⟩ := h
    rw [hd]
    refine ⟨rfl, ?_, ?_⟩
    · show 0 + k + 1 = k + 1
      omega
    · show 0 + 10 * (k + 1) = 10 * (k + 1)
      omega

/-- Claim C1, witness: a provider failing the first 4 attempts and
succeeding on the 5th yields success after exactly 5 attempts and 50 units
of slept delay; an always-failing provider yields failure after exactly 5
attempts. -/
theorem C1_dispatch_retry_policy_witness :
    dispatch (fun i => decide (4 ≤ i)) = ⟨true, 5, 50⟩
    ∧ dispatch (fun _ => false) = ⟨false, 5, 50⟩ :=
  ⟨(C1_dispatch_retry_policy (fun i => decide (4 ≤ i))).2.2.1
      (fun i hi => by simp; omega) (by decide),
   (C1_dispatch_retry_policy (fun _ => false)).2.2.2.1 (fun _ => rfl)⟩

theorem contains_eq_true_iff (seen : List String) (t : String) :
    seen.contains t = true ↔ t ∈ seen :=
  List.elem_iff

theorem filterItems_sublist (parse : String → Int) (now days : Int) :
    ∀ (l : List SearchItem) (seen : List String),
      List.Sublist (filterItems parse now days l seen) (l.map item_to_video) := by
  intro l
  induction l with
  | nil =>
      intro seen
      simp [filterItems]
  | cons i rest ih =>
      intro seen
      simp only [filterItems, List.map_cons]
      split_ifs with h
      · exact (ih _).cons₂ _
      · exact (ih _).cons _

theorem mem_filterItems (parse : String → Int) (now days : Int) :
    ∀ (l : List SearchItem) (seen : List String) (v : Video),
      v ∈ filterItems parse now days l seen →
      ∃ i, i ∈ l ∧ v = item_to_video i
        ∧ passDescRecency parse now days i = true
        ∧ i.snippet.title ∉ seen := by
  intro l
  induction l with
  | nil =>
      intro seen v hv
      simp [filterItems] at hv
  | cons i rest ih =>
      intro seen v hv
      simp only [filterItems] at hv
      split_ifs at hv with h
      · obtain ⟨hpass, hnc⟩ := Bool.and_eq_true_iff.mp h
        have hnotin : i.snippet.title ∉ seen := by
          intro hin
          rw [Bool.not_eq_true', ← Bool.not_eq_true] at hnc
          exact hnc ((contains_eq_true_iff seen _).mpr hin)
        rcases List.mem_cons.mp hv with rfl | hv2
        · exact ⟨i, List.mem_cons_self _ _, rfl, hpass, hnotin⟩
        · obtain ⟨j, hj, hveq, hpj, hnsj⟩ := ih _ _ hv2
          refine ⟨j, List.mem_cons_of_mem _ hj, hveq, hpj, ?_⟩
          intro hin
          exact hnsj (List.mem_cons_of_mem _ hin)
      · obtain ⟨j, hj, hveq, hpj, hnsj⟩ := ih _ _ hv
        exact ⟨j, List.mem_cons_of_mem _ hj, hveq, hpj, hnsj⟩

theorem filterItems_pairwise (parse : String → Int) (now days : Int) :
    ∀ (l : List SearchItem) (seen : List String),
      List.Pairwise (fun u v : Video => u.title ≠ v.title)
        (filterItems parse now days l seen) := by
  intro l
  induction l with
  | nil =>
      intro seen
      simp [filterItems]
  | cons i rest ih =>
      intro seen
      simp only [filterItems]
      split_ifs with h
      · refine List.Pairwise.cons ?_ (ih _)
        intro v hv
        obtain ⟨j, _, rfl, _, hnsj⟩ := mem_filterItems parse now days rest _ v hv
        have hne : j.snippet.title ≠ i.snippet.title := by
          intro he
          exact hnsj (by rw [he]; exact List.mem_cons_self _ _)
        simpa [item_to_video] using fun he => hne he.symm
      · exact ih _

theorem filterItems_append (parse : String → Int) (now days : Int) :
    ∀ (xs ys : List SearchItem) (seen : List String),
      filterItems parse now days (xs ++ ys) seen =
        filterItems parse now days xs seen ++
          filterItems parse now days ys (seenAfter parse now days xs seen) := by
  intro xs
  induction xs with
  | nil =>
      intro ys seen
      simp [filterItems, seenAfter]
  | cons i rest ih =>
      intro ys seen
      simp only [List.cons_append, filterItems, seenAfter]
      split_ifs with h
      · simp [ih]
      · exact ih _ _

theorem mem_seenAfter (parse : String → Int) (now days : Int) :
    ∀ (l : List SearchItem) (seen : List String) (t : String),
      t ∈ seenAfter parse now days l seen →
      t ∈ seen ∨ ∃ j, j ∈ l ∧ passDescRecency parse now days j = true
        ∧ j.snippet.title = t := by
  intro l
  induction l with
  | nil =>
      intro seen t ht
      left
      simpa [seenAfter] using ht
  | cons i rest ih =>
      intro seen t ht
      simp only [seenAfter] at ht
      split_ifs at ht with h
      · rcases ih _ _ ht with hseen | ⟨j, hj, hp, he⟩
        · rcases List.mem_cons.mp hseen with rfl | hs
          · right
            exact ⟨i, List.mem_cons_self _ _, (Bool.and_eq_true_iff.mp h).1, rfl⟩
          · left
            exact hs
        · right
          exact ⟨j, List.mem_cons_of_mem _ hj, hp, he⟩
      · rcases ih _ _ ht with hseen | ⟨j, hj, hp, he⟩
        · left
          exact hseen
        · right
          exact ⟨j, List.mem_cons_of_mem _ hj, hp, he⟩

/-- Claim C4: filtering deduplicates on `title` (case-sensitive) and never
on `item_id`: the surviving videos have pairwise distinct titles and appear
in input order (a sublist of the input's image); when two items share a
title and the earlier one passes the description/recency filters (with no
earlier passing item claiming that title), the earlier one survives and the
later one — even with a different `item_id` — does not; and two items with
different titles both survive even when their `item_id`s coincide. -/
theorem C4_title_dedup (parse : String → Int) (now days : Int)
    (items : List SearchItem) :
    List.Pairwise (fun u v : Video => u.title ≠ v.title)
        (filterItems parse now days items [])
    ∧ List.Sublist (filterItems parse now days items []) (items.map item_to_video)
    ∧ (∀ l1 a l2 b l3,
        items = l1 ++ a :: (l2 ++ b :: l3) →
        a.snippet.title = b.snippet.title →
        passDescRecency parse now days a = true →
        (∀ j, j ∈ l1 → passDescRecency parse now days j = true →
          j.snippet.title ≠ a.snippet.title) →
        item_to_video a ∈ filterItems parse now days items []
        ∧ (a.videoId ≠ b.videoId →
            item_to_video b ∉ filterItems parse now days items []))
    ∧ (∀ a b, passDescRecency parse now days a = true →
        passDescRecency parse now days b = true →
        a.snippet.title ≠ b.snippet.title →
        filterItems parse now days [a, b] [] =
          [item_to_video a, item_to_video b]) := by
  refine ⟨filterItems_pairwise parse now days items [],
    filterItems_sublist parse now days items [], ?_, ?_⟩
  · intro l1 a l2 b l3 hitems hab hpa hfirst
    subst hitems
    have hamem : item_to_video a ∈
        filterItems parse now days (l1 ++ a :: (l2 ++ b :: l3)) [] := by
      rw [filterItems_append]
      have hnc : (seenAfter parse now days l1 []).contains a.snippet.title = false := by
        cases hc : (seenAfter parse now days l1 []).contains a.snippet.title
        · rfl
        · exfalso
          have hmem := (contains_eq_true_iff _ _).mp hc
          rcases mem_seenAfter parse now days l1 [] _ hmem with hnil | ⟨j, hj, hpj, hej⟩
          · simp at hnil
          · exact hfirst j hj hpj hej
      have hnotin : a.snippet.title ∉ seenAfter parse now days l1 [] := by
        intro hin
        have hc := (contains_eq_true_iff _ _).mpr hin
        rw [hc] at hnc
        exact Bool.noConfusion hnc
      refine List.mem_append_right _ ?_
      simp only [filterItems, hpa, Bool.true_and]
      rw [if_pos]
      · exact List.mem_cons_self _ _
      · rw [hnc]
        rfl
    refine ⟨hamem, ?_⟩
    intro hvid hbmem
    have hpair := filterItems_pairwise parse now days (l1 ++ a :: (l2 ++ b :: l3)) []
    have hne : item_to_video a ≠ item_to_video b := by
      intro he
      apply hvid
      have hids := congrArg Video.video_id he
      simpa [item_to_video] using hids
    have hsym : Symmetric (fun u v : Video => u.title ≠ v.title) := by
      intro x y hxy he
      exact hxy he.symm
    have := List.Pairwise.forall hsym hpair hamem hbmem hne
    apply this
    simp [item_to_video, hab]
  · intro a b hpa hpb hab
    have hba : (b.snippet.title == a.snippet.title) = false :=
      beq_eq_false_iff_ne.mpr (fun h => hab h.symm)
    simp [filterItems, hpa, hpb, List.contains, List.elem, hba]

/-- Claim C4, witness: in a two-item batch sharing a title but with
different item ids, the first survives and the second does not. -/
theorem C4_title_dedup_witness :
    item_to_video ⟨⟨"T", "d", "p", none, none⟩, some "1"⟩ ∈
        filterItems (fun _ => 0) 0 0
          [⟨⟨"T", "d", "p", none, none⟩, some "1"⟩,
           ⟨⟨"T", "d", "p", none, none⟩, some "2"⟩] []
    ∧ item_to_video ⟨⟨"T", "d", "p", none, none⟩, some "2"⟩ ∉
        filterItems (fun _ => 0) 0 0
          [⟨⟨"T", "d", "p", none, none⟩, some "1"⟩,
           ⟨⟨"T", "d", "p", none, none⟩, some "2"⟩] [] := by
  have h := (C4_title_dedup (fun _ => 0) 0 0
      [⟨⟨"T", "d", "p", none, none⟩, some "1"⟩,
       ⟨⟨"T", "d", "p", none, none⟩, some "2"⟩]).2.2.1
    [] ⟨⟨"T", "d", "p", none, none⟩, some "1"⟩
    [] ⟨⟨"T", "d", "p", none, none⟩, some "2"⟩ []
    rfl rfl (by decide) (by intro j hj hp; simp at hj)
  exact ⟨h.1, h.2 (by decide)⟩

end Summariser
